import Mathlib

/-!
Verification of the context-sensitivity layer of the swc lexer
(`src/ecmascript/parser/src/lexer/state.rs`).

The Rust code is shallowly embedded: `BytePos` becomes `Nat`, the
`SmallVec`-backed context stack becomes a `List` whose head is the top of
the stack (`current()` = `List.head?`, `push` = `List.cons`, `pop` =
head removal), and the two places where the source can panic
(`context.pop().unwrap()` on an empty stack and `prev.expect(..)` in the
`of` branch) are modelled by an `Option` result, `none` meaning the
process aborts.  The token definitions themselves live in the crate's
`token` module, which is not part of the analysed sources, so they are
modelled from the specification where marked.
-/

set_option maxHeartbeats 1000000

namespace Swc

/-- Byte position in the source file (`swc_common::BytePos`). -/
abbrev BytePos := Nat

/-- Modelled from the spec: the `Keyword` enum of the missing `token`
module.  Only the keywords that the state machinery in `state.rs`
distinguishes by name are listed; §4.1 says reserved words are classified
as `Keyword`, and the dispatch table of §4.3 treats `of` as a keyword. -/
inductive Keyword where
  | Return | Yield | Else | Let | Const | Var
  | If | With | While | For | Of | Function
deriving DecidableEq, Repr

/-- Modelled from the spec: keyword-specific `before_expr` constants
(§3: "operator/keyword-specific answers", supplied by the missing `token`
module).  `return`, `yield` and `else` may be followed by an expression;
the remaining listed keywords may not.  No verified claim depends on a
particular keyword's constant. -/
def Keyword.before_expr : Keyword → Bool
  | Keyword.Return => true
  | Keyword.Yield => true
  | Keyword.Else => true
  | _ => false

/-- Modelled from the spec: binary-operator tokens of the missing `token`
module.  `state.rs` only distinguishes `<` and `>`; every other operator
is carried with its scanner-supplied `before_expr` constant. -/
inductive BinOpToken where
  | Lt
  | Gt
  | OtherOp (before_expr : Bool)
deriving DecidableEq, Repr

/-- Modelled from the spec: a binary operator is followed by an
expression (§3); for unlisted operators the scanner-supplied constant is
carried in the constructor. -/
def BinOpToken.before_expr : BinOpToken → Bool
  | BinOpToken.Lt => true
  | BinOpToken.Gt => true
  | BinOpToken.OtherOp b => b

/-- Modelled from the spec: the `Word` enum of the missing `token`
module — an identifier-like token is either a plain identifier or a
reserved word (§4.1). -/
inductive Word where
  | Ident (name : String)
  | Keyword (k : Keyword)
deriving DecidableEq, Repr

/-- Modelled from the spec: the concrete `Token` enum of the missing
`token` module, restricted to the shapes `state.rs` pattern-matches on
(`tok!` expansions).  All remaining token kinds fall into `Other`, which
carries its scanner-supplied `before_expr` constant (§6).  `Error`
carries the scan error's payload, modelled as a number. -/
inductive Token where
  | Template
  | Dot
  | Colon
  | LBrace
  | RBrace
  | LParen
  | RParen
  | Semi
  | DollarLBrace
  | BackQuote
  | PlusPlus
  | MinusMinus
  | BinOp (op : BinOpToken)
  | Word (w : Word)
  | Error (e : Nat)
  | Other (before_expr : Bool)
deriving DecidableEq, Repr

/-- Modelled from the spec: the per-token-kind `before_expr` constant
lookup supplied by the scanner (§6), with the fixed answers of §3 for the
dedicated punctuator kinds.  Only the kinds that can reach the update
algorithm's default arm influence any verified claim. -/
def Token.before_expr : Token → Bool
  | Token.Template => false
  | Token.Dot => false
  | Token.Colon => true
  | Token.LBrace => true
  | Token.RBrace => false
  | Token.LParen => true
  | Token.RParen => false
  | Token.Semi => true
  | Token.DollarLBrace => true
  | Token.BackQuote => false
  | Token.PlusPlus => true
  | Token.MinusMinus => true
  | Token.BinOp op => op.before_expr
  | Token.Word (Word.Keyword k) => k.before_expr
  | Token.Word (Word.Ident _) => false
  | Token.Error _ => false
  | Token.Other b => b

/-- The `TokenType` enum of `state.rs` (the token classification used
only for context decisions). -/
inductive TokenType where
  | Template
  | Dot
  | Colon
  | LBrace
  | RParen
  | Semi
  | BinOp (op : BinOpToken)
  | Keyword (k : Keyword)
  | Other (before_expr : Bool)
deriving DecidableEq, Repr

/-- `TokenType::before_expr` of `state.rs`. -/
def TokenType.before_expr : TokenType → Bool
  | TokenType.Template | TokenType.Dot | TokenType.RParen => false
  | TokenType.Colon | TokenType.LBrace | TokenType.Semi => true
  | TokenType.BinOp b => b.before_expr
  | TokenType.Keyword k => k.before_expr
  | TokenType.Other b => b

/-- `impl From<&Token> for TokenType` of `state.rs`. -/
def TokenType.fromToken : Token → TokenType
  | Token.Template => TokenType.Template
  | Token.Dot => TokenType.Dot
  | Token.Colon => TokenType.Colon
  | Token.LBrace => TokenType.LBrace
  | Token.RParen => TokenType.RParen
  | Token.Semi => TokenType.Semi
  | Token.BinOp op => TokenType.BinOp op
  | Token.Word (Word.Keyword k) => TokenType.Keyword k
  | t => TokenType.Other t.before_expr

/-- The `Type` enum of `state.rs` (context markers; renamed `Ty` because
`Type` is reserved in Lean). -/
inductive Ty where
  | BraceStmt
  | BraceExpr
  | TplQuasi
  | ParenStmt (is_for_loop : Bool)
  | ParenExpr
  | Tpl (start : BytePos)
  | FnExpr
deriving DecidableEq, Repr

/-- `Type::is_expr`, generated by the `Kind` derive in `state.rs`: true
exactly for the variants annotated `#[kind(is_expr)]`. -/
def Ty.is_expr : Ty → Bool
  | Ty.BraceExpr | Ty.TplQuasi | Ty.ParenExpr | Ty.Tpl _ | Ty.FnExpr => true
  | Ty.BraceStmt | Ty.ParenStmt _ => false

/-- `Type::preserve_space`, generated by the `Kind` derive in
`state.rs`: true exactly for `Tpl`. -/
def Ty.preserve_space : Ty → Bool
  | Ty.Tpl _ => true
  | _ => false

/-- The context stack: `Context(SmallVec<[Type; 32]>)` of `state.rs`,
with the head of the list as the top of the stack (`current()` =
`head?`, `push` = `cons`, `pop` = removing the head, `len` = `length`). -/
abbrev Context := List Ty

/-- `Context::is_brace_block` of `state.rs`: decides whether an upcoming
`{` opens a statement block. -/
def is_brace_block (ctx : Context) (prev : Option TokenType)
    (had_line_break : Bool) (is_expr_allowed : Bool) : Bool :=
  if prev = some TokenType.Colon ∧ ctx.head? = some Ty.BraceStmt then
    true
  else if prev = some TokenType.Colon ∧ ctx.head? = some Ty.BraceExpr then
    false
  else
    match prev with
    | some (TokenType.Keyword Keyword.Return)
    | some (TokenType.Keyword Keyword.Yield) => had_line_break
    | some (TokenType.Keyword Keyword.Else)
    | some TokenType.Semi
    | none
    | some TokenType.RParen => true
    | some TokenType.LBrace => decide (ctx.head? = some Ty.BraceStmt)
    | some (TokenType.BinOp BinOpToken.Lt)
    | some (TokenType.BinOp BinOpToken.Gt) => true
    | _ => !is_expr_allowed

/-- Is the newly produced token a reserved word? (the `is_next_keyword`
computation at the top of `State::is_expr_allowed_on_next`). -/
def is_next_keyword : Token → Bool
  | Token.Word (Word.Keyword _) => true
  | _ => false

/-- `State::is_expr_allowed_on_next` of `state.rs`.  Returns the new
`is_expr_allowed` flag together with the mutated context stack; `none`
models the two panics (`context.pop().unwrap()` on an empty stack and
`prev.expect(..)` in the `of` branch), i.e. an internal-invariant
violation that aborts the session. -/
def is_expr_allowed_on_next (ctx : Context) (prev : Option TokenType)
    (start : BytePos) (next : Token) (had_line_break : Bool)
    (is_expr_allowed : Bool) : Option (Bool × Context) :=
  if is_next_keyword next = true ∧ prev = some TokenType.Dot then
    some (false, ctx)
  else
    match next with
    | Token.RParen | Token.RBrace =>
      if ctx.length = 1 then
        some (true, ctx)
      else
        match ctx with
        | [] => none
        | out :: rest =>
          if out = Ty.BraceStmt ∧ rest.head? = some Ty.FnExpr then
            some (false, rest.tail)
          else if out = Ty.TplQuasi then
            some (true, rest)
          else
            some (!out.is_expr, rest)
    | Token.Word (Word.Keyword Keyword.Function) =>
      if is_expr_allowed && !(is_brace_block ctx prev had_line_break is_expr_allowed) then
        some (false, Ty.FnExpr :: ctx)
      else
        some (false, ctx)
    | Token.Word (Word.Keyword Keyword.Of) =>
      if ctx.head? = some (Ty.ParenStmt true) then
        match prev with
        | some p => some (!p.before_expr, ctx)
        | none => none
      else
        some ((Token.Word (Word.Keyword Keyword.Of)).before_expr, ctx)
    | Token.Word (Word.Ident _) =>
      some ((match prev with
             | some (TokenType.Keyword Keyword.Let)
             | some (TokenType.Keyword Keyword.Const)
             | some (TokenType.Keyword Keyword.Var) => had_line_break
             | _ => false), ctx)
    | Token.LBrace =>
      let next_ctxt :=
        if is_brace_block ctx prev had_line_break is_expr_allowed then
          Ty.BraceStmt
        else
          Ty.BraceExpr
      some (true, next_ctxt :: ctx)
    | Token.DollarLBrace =>
      some (true, Ty.TplQuasi :: ctx)
    | Token.LParen =>
      some (true,
        (match prev with
         | some (TokenType.Keyword Keyword.If)
         | some (TokenType.Keyword Keyword.With)
         | some (TokenType.Keyword Keyword.While) => Ty.ParenStmt false
         | some (TokenType.Keyword Keyword.For) => Ty.ParenStmt true
         | _ => Ty.ParenExpr) :: ctx)
    | Token.PlusPlus | Token.MinusMinus =>
      some (is_expr_allowed, ctx)
    | Token.BackQuote =>
      match ctx with
      | Ty.Tpl _ :: rest => some (false, rest)
      | _ => some (false, Ty.Tpl start :: ctx)
    | t =>
      some (t.before_expr, ctx)

/-- The `State` struct of `state.rs`. -/
structure State where
  is_expr_allowed : Bool
  octal_pos : Option BytePos
  had_line_break : Bool
  is_first : Bool
  context : Context
  token_type : Option TokenType
deriving DecidableEq, Repr

/-- `impl Default for State` of `state.rs`: the initial session state,
with the context stack seeded with one `BraceStmt` marker. -/
def State.default : State :=
  { is_expr_allowed := true
    octal_pos := none
    had_line_break := false
    is_first := true
    context := [Ty.BraceStmt]
    token_type := none }

/-- `State::can_skip_space` of `state.rs`. -/
def State.can_skip_space (st : State) : Bool :=
  !((st.context.head?.map Ty.preserve_space).getD false)

/-- `State::last_was_tpl_element` of `state.rs`. -/
def State.last_was_tpl_element (st : State) : Bool :=
  match st.token_type with
  | some TokenType.Template => true
  | _ => false

/-- `State::update` of `state.rs`: records the new token's
classification and recomputes `is_expr_allowed`, mutating the context
stack.  `none` models a panic inside `is_expr_allowed_on_next`. -/
def State.update (st : State) (start : BytePos) (next : Token) : Option State :=
  match is_expr_allowed_on_next st.context st.token_type start next
      st.had_line_break st.is_expr_allowed with
  | some (b, ctx) =>
    some { st with
           token_type := some (TokenType.fromToken next)
           is_expr_allowed := b
           context := ctx }
  | none => none

/-- One emitted item: `TokenAndSpan` of the lexer. -/
structure TokenAndSpan where
  token : Token
  had_line_break : Bool
  span_lo : BytePos
  span_hi : BytePos
deriving DecidableEq, Repr

/-- Modelled from the spec: the outcomes of one round of interaction
with the external character scanner (§6) during a single call to
`Lexer::next` — the result of the whitespace skipper is `skip_error` (`some e`
meaning `Err(e)`) together with `skip_saw_newline` (whether the skipped
whitespace contained a line break, which the skipper records in
`had_line_break`), `pos0`/`pos1`/`pos2` are `cur_pos()` before the skip,
after the skip and after the read, `ordinary` is `read_token()`'s result
and `template` is `read_tmpl_token(..)`'s result. -/
structure ScannerStep where
  skip_error : Option Nat
  skip_saw_newline : Bool
  pos0 : BytePos
  pos1 : BytePos
  pos2 : BytePos
  ordinary : Except Nat (Option Token)
  template : Except Nat Token
deriving Repr

/-- The scan-path selection of `Lexer::next` in `state.rs`: the
template-aware path when the current context is `Tpl`, the ordinary path
otherwise (`read_tmpl_token(..).map(Some)` vs `read_token()`). -/
def readRes (ctx : Context) (sc : ScannerStep) : Except Nat (Option Token) :=
  match ctx.head? with
  | some (Ty.Tpl _) => sc.template.map some
  | _ => sc.ordinary

/-- The read-and-update tail of `Lexer::next` in `state.rs` (everything
after the whitespace skip): scan failures are converted into
`Token::Error`, `state.update` runs on every produced token (error
tokens included), and end of input yields no item while leaving the
state untouched. -/
def lexerNextRead (st : State) (sc : ScannerStep) :
    Option (Option TokenAndSpan × State) :=
  match (match readRes st.context sc with
         | Except.ok t => t
         | Except.error e => some (Token.Error e)) with
  | some t =>
    match st.update sc.pos1 t with
    | some st1 =>
      some (some { token := t
                   had_line_break := st1.had_line_break
                   span_lo := sc.pos1
                   span_hi := sc.pos2 }, st1)
    | none => none
  | none => some (none, st)

/-- `impl Iterator for Lexer` (`Lexer::next`) of `state.rs`, one call of
the token production loop: set `had_line_break` from the first-call
flag, clear the flag, run the whitespace skipper when the current
context does not preserve space (a skip failure is emitted immediately
as an error token, short-circuiting the rest), then read and update.
The outer `Option` is `none` when the update algorithm panics. -/
def lexerNext (l : State) (sc : ScannerStep) :
    Option (Option TokenAndSpan × State) :=
  let st : State := { l with had_line_break := l.is_first, is_first := false }
  if st.can_skip_space then
    match sc.skip_error with
    | some e =>
      some (some { token := Token.Error e
                   had_line_break := st.had_line_break
                   span_lo := sc.pos0
                   span_hi := sc.pos1 }, st)
    | none =>
      lexerNextRead
        { st with had_line_break := st.had_line_break || sc.skip_saw_newline } sc
  else
    lexerNextRead st sc

/-- The lexer states reachable in a tokenization session: the freshly
seeded state, closed under one run of the update algorithm (with the
line-break flag set arbitrarily by the surrounding loop and skipper
between updates). -/
inductive Reachable : State → Prop where
  | init : Reachable State.default
  | step {st st1 : State} (hlb : Bool) (start : BytePos) (next : Token) :
      Reachable st →
      State.update { st with had_line_break := hlb } start next = some st1 →
      Reachable st1

/-!  Helper lemmas shared by several claims.  -/

/-- The update algorithm routes an error token through its default arm:
no context mutation, and the flag becomes the error token's scanner
constant. -/
theorem ieaon_error (ctx : Context) (prev : Option TokenType) (start : BytePos)
    (e : Nat) (hlb b : Bool) :
    is_expr_allowed_on_next ctx prev start (Token.Error e) hlb b
      = some (false, ctx) := by
  unfold is_expr_allowed_on_next
  rw [if_neg (by simp [is_next_keyword])]
  rfl

/-- `can_skip_space` depends only on the context stack, so the flag
twiddling at the top of `Lexer::next` does not change it. -/
theorem can_skip_space_flags (st : State) (hlb fi : Bool) :
    State.can_skip_space { st with had_line_break := hlb, is_first := fi }
      = st.can_skip_space := rfl

/-- Claim C4: with previous classification keyword `return` or `yield`,
the brace-disambiguation rule classifies the upcoming `{` as a statement
block exactly when a line break preceded the current token. -/
theorem C4_return_yield_block (ctx : Context) (had_line_break is_expr_allowed : Bool)
    (k : Keyword) (hk : k = Keyword.Return ∨ k = Keyword.Yield) :
    is_brace_block ctx (some (TokenType.Keyword k)) had_line_break is_expr_allowed
      = had_line_break := by
  rcases hk with rfl | rfl <;> simp [is_brace_block]

/-- Witness for C4 at a concrete input. -/
theorem C4_witness :
    is_brace_block [Ty.BraceStmt] (some (TokenType.Keyword Keyword.Return)) true false
      = true :=
  C4_return_yield_block [Ty.BraceStmt] true false Keyword.Return (Or.inl rfl)

/-- Claim C6: a plain (non-keyword) identifier makes the new
`is_expr_allowed` true exactly when the previous classification was
keyword `let`, `const` or `var` and a line break preceded the
identifier; in every other case (including no previous token) it is
false, and the context stack is untouched. -/
theorem C6_plain_ident (ctx : Context) (prev : Option TokenType) (start : BytePos)
    (had_line_break is_expr_allowed : Bool) (s : String) :
    is_expr_allowed_on_next ctx prev start (Token.Word (Word.Ident s))
        had_line_break is_expr_allowed
      = some (decide ((prev = some (TokenType.Keyword Keyword.Let)
            ∨ prev = some (TokenType.Keyword Keyword.Const)
            ∨ prev = some (TokenType.Keyword Keyword.Var))
          ∧ had_line_break = true), ctx) := by
  unfold is_expr_allowed_on_next
  rw [if_neg (by simp [is_next_keyword])]
  rcases prev with _ | p
  · simp
  · cases p
    case Keyword k => cases k <;> simp
    all_goals simp

/-- Claim C7: an identifier-keyword right after `Dot` (property access)
yields `is_expr_allowed = false`, before any other dispatch arm runs and
without touching the context stack. -/
theorem C7_keyword_after_dot (ctx : Context) (k : Keyword) (start : BytePos)
    (had_line_break is_expr_allowed : Bool) :
    is_expr_allowed_on_next ctx (some TokenType.Dot) start
        (Token.Word (Word.Keyword k)) had_line_break is_expr_allowed
      = some (false, ctx) := by
  unfold is_expr_allowed_on_next
  rw [if_pos ⟨rfl, rfl⟩]

/-- Claim C8: a backtick pops the top of the context stack when that
top is a `Tpl` marker and pushes `Tpl{start}` otherwise; either way the
new `is_expr_allowed` is false. -/
theorem C8_backquote (ctx : Context) (prev : Option TokenType) (start : BytePos)
    (had_line_break is_expr_allowed : Bool) :
    is_expr_allowed_on_next ctx prev start Token.BackQuote had_line_break is_expr_allowed
      = some (false,
          match ctx with
          | Ty.Tpl _ :: rest => rest
          | _ => Ty.Tpl start :: ctx) := by
  unfold is_expr_allowed_on_next
  rw [if_neg (by simp [is_next_keyword])]
  rcases ctx with _ | ⟨c, rest⟩
  · rfl
  · cases c <;> rfl

/-- Claim C3: a `)` or `}` closer that pops a `BraceStmt` whose new top
of stack is `FnExpr` also pops the `FnExpr` marker and yields
`is_expr_allowed = false`. -/
theorem C3_close_fn_expr_body (rest : Context) (prev : Option TokenType) (start : BytePos)
    (had_line_break is_expr_allowed : Bool) (tok : Token)
    (htok : tok = Token.RParen ∨ tok = Token.RBrace) :
    is_expr_allowed_on_next (Ty.BraceStmt :: Ty.FnExpr :: rest) prev start tok
        had_line_break is_expr_allowed
      = some (false, rest) := by
  rcases htok with rfl | rfl <;>
  · unfold is_expr_allowed_on_next
    rw [if_neg (by simp [is_next_keyword])]
    rfl

/-- Witness for C3 at a concrete input. -/
theorem C3_witness :
    is_expr_allowed_on_next [Ty.BraceStmt, Ty.FnExpr, Ty.BraceStmt] none 0 Token.RBrace
        false true
      = some (false, [Ty.BraceStmt]) :=
  C3_close_fn_expr_body [Ty.BraceStmt] none 0 false true Token.RBrace (Or.inr rfl)

/-- Counterexample to claim C5 as stated: with the top of stack
`ParenStmt{is_for_loop: true}` but previous classification `Dot`
(e.g. `for (a.of`), the update algorithm returns `false`, not the
negation of `Dot`'s `before_expr` (which would be `true`): the
keyword-after-`Dot` special case takes priority. -/
theorem C5_cex :
    is_expr_allowed_on_next [Ty.ParenStmt true, Ty.BraceStmt] (some TokenType.Dot) 0
        (Token.Word (Word.Keyword Keyword.Of)) false true
      = some (false, [Ty.ParenStmt true, Ty.BraceStmt])
    ∧ (!TokenType.Dot.before_expr) = true := by
  constructor
  · unfold is_expr_allowed_on_next
    rw [if_pos ⟨rfl, rfl⟩]
  · rfl

/-- Claim C5 (amended): keyword `of` with top of stack
`ParenStmt{is_for_loop: true}` and a previous classification other than
`Dot` yields the negation of the previous classification's
`before_expr`; with no previous classification the `prev.expect(..)`
panic fires (internal-invariant violation aborting the session,
modelled as `none`). -/
theorem C5_of_amended (ctx : Context) (prev : Option TokenType) (start : BytePos)
    (had_line_break is_expr_allowed : Bool)
    (htop : ctx.head? = some (Ty.ParenStmt true))
    (hdot : prev ≠ some TokenType.Dot) :
    is_expr_allowed_on_next ctx prev start (Token.Word (Word.Keyword Keyword.Of))
        had_line_break is_expr_allowed
      = match prev with
        | some p => some (!p.before_expr, ctx)
        | none => none := by
  unfold is_expr_allowed_on_next
  rw [if_neg (by simp [hdot]), if_pos htop]
  rcases prev with _ | p <;> rfl

/-- Witness for the amended C5 at a concrete input. -/
theorem C5_witness :
    is_expr_allowed_on_next [Ty.ParenStmt true, Ty.BraceStmt] (some TokenType.Semi) 0
        (Token.Word (Word.Keyword Keyword.Of)) false true
      = some (false, [Ty.ParenStmt true, Ty.BraceStmt]) :=
  C5_of_amended [Ty.ParenStmt true, Ty.BraceStmt] (some TokenType.Semi) 0 false true
    rfl (by decide)

/-- The structural invariant of the context stack: the seeded
`BraceStmt` marker is the bottom element (in particular the stack is
non-empty). -/
def StackInv (ctx : Context) : Prop :=
  ∃ l, ctx = l ++ [Ty.BraceStmt]

/-- One run of the update algorithm preserves the context-stack
invariant. -/
theorem ieaon_stack_inv {ctx : Context} {prev : Option TokenType} {start : BytePos}
    {next : Token} {hlb b : Bool} {res : Bool × Context}
    (h : is_expr_allowed_on_next ctx prev start next hlb b = some res)
    (hinv : StackInv ctx) : StackInv res.2 := by
  obtain ⟨l, rfl⟩ := hinv
  unfold is_expr_allowed_on_next at h
  split at h
  · obtain rfl := Option.some.inj h
    exact ⟨l, rfl⟩
  · split at h
    all_goals try (obtain rfl := Option.some.inj h; exact ⟨l, rfl⟩)
    all_goals try (obtain rfl := Option.some.inj h; exact ⟨_ :: l, rfl⟩)
    all_goals split at h
    all_goals try (obtain rfl := Option.some.inj h; exact ⟨l, rfl⟩)
    all_goals try (obtain rfl := Option.some.inj h; exact ⟨_ :: l, rfl⟩)
    -- remaining: the two closer arms below depth 1, the `of` arm with a
    -- for-loop paren marker on top, and the backtick pop of a `Tpl` marker
    · rename_i hlen
      rcases l with _ | ⟨o, l2⟩
      · exact absurd rfl hlen
      · split at h
        all_goals try exact Option.noConfusion h
        · rename_i out rest heq
          injection heq with ho hrest
          subst ho
          subst hrest
          split at h
          · rename_i hcond
            obtain rfl := Option.some.inj h
            rcases l2 with _ | ⟨f, l3⟩
            · exact absurd hcond.2 (by simp)
            · exact ⟨l3, rfl⟩
          · split at h
            · obtain rfl := Option.some.inj h
              exact ⟨l2, rfl⟩
            · obtain rfl := Option.some.inj h
              exact ⟨l2, rfl⟩
    · rename_i hlen
      rcases l with _ | ⟨o, l2⟩
      · exact absurd rfl hlen
      · split at h
        all_goals try exact Option.noConfusion h
        · rename_i out rest heq
          injection heq with ho hrest
          subst ho
          subst hrest
          split at h
          · rename_i hcond
            obtain rfl := Option.some.inj h
            rcases l2 with _ | ⟨f, l3⟩
            · exact absurd hcond.2 (by simp)
            · exact ⟨l3, rfl⟩
          · split at h
            · obtain rfl := Option.some.inj h
              exact ⟨l2, rfl⟩
            · obtain rfl := Option.some.inj h
              exact ⟨l2, rfl⟩
    · split at h
      · obtain rfl := Option.some.inj h
        exact ⟨l, rfl⟩
      · exact Option.noConfusion h
    · rename_i s rest heq
      obtain rfl := Option.some.inj h
      rcases l with _ | ⟨o, l2⟩
      · simp at heq
      · injection heq with h1 h2
        exact ⟨l2, h2.symm⟩

/-- `State::update` preserves the context-stack invariant. -/
theorem update_stack_inv {st st1 : State} {start : BytePos} {next : Token}
    (h : State.update st start next = some st1)
    (hinv : StackInv st.context) : StackInv st1.context := by
  unfold State.update at h
  cases hi : is_expr_allowed_on_next st.context st.token_type start next
      st.had_line_break st.is_expr_allowed with
  | none => rw [hi] at h; cases h
  | some r =>
    obtain ⟨rb, rc⟩ := r
    rw [hi] at h
    have h2 := Option.some.inj h
    subst h2
    exact ieaon_stack_inv hi hinv

/-- Every reachable lexer state satisfies the context-stack invariant. -/
theorem reachable_stack_inv {st : State} (h : Reachable st) : StackInv st.context := by
  induction h with
  | init => exact ⟨[], rfl⟩
  | step hlb start next hr hupd ih => exact update_stack_inv hupd ih

/-- Claim C1: the context stack of every reachable lexer state is
non-empty — it starts as the single `BraceStmt` marker, and a `)` or `}`
closer processed at stack depth 1 leaves the stack unchanged and returns
`is_expr_allowed = true`, so no update step pops below depth 1. -/
theorem C1_stack_never_empty :
    State.default.context = [Ty.BraceStmt]
    ∧ (∀ st : State, Reachable st → st.context ≠ [])
    ∧ (∀ (t : Ty) (prev : Option TokenType) (start : BytePos)
        (had_line_break is_expr_allowed : Bool) (tok : Token),
        tok = Token.RParen ∨ tok = Token.RBrace →
        is_expr_allowed_on_next [t] prev start tok had_line_break is_expr_allowed
          = some (true, [t])) := by
  refine ⟨rfl, ?_, ?_⟩
  · intro st hst
    obtain ⟨l, hl⟩ := reachable_stack_inv hst
    rw [hl]
    simp
  · intro t prev start had_line_break is_expr_allowed tok htok
    rcases htok with rfl | rfl <;>
    · unfold is_expr_allowed_on_next
      rw [if_neg (by simp [is_next_keyword])]
      rfl

/-- Witness for C1 at concrete inputs. -/
theorem C1_witness :
    State.default.context ≠ []
    ∧ is_expr_allowed_on_next [Ty.BraceStmt] none 0 Token.RParen false true
        = some (true, [Ty.BraceStmt]) :=
  ⟨C1_stack_never_empty.2.1 State.default Reachable.init,
   C1_stack_never_empty.2.2 Ty.BraceStmt none 0 false true Token.RParen (Or.inl rfl)⟩

/-- Claim C10: in every reachable lexer state the bottom of the context
stack is the seeded `BraceStmt` marker, and a stack of depth 1 consists
of exactly that marker. -/
theorem C10_bottom_marker :
    ∀ st : State, Reachable st →
      st.context.getLast? = some Ty.BraceStmt
      ∧ (st.context.length = 1 → st.context = [Ty.BraceStmt]) := by
  intro st hst
  obtain ⟨l, hl⟩ := reachable_stack_inv hst
  constructor
  · rw [hl, List.getLast?_append_cons]
    rfl
  · intro hlen
    rcases l with _ | ⟨o, l2⟩
    · exact hl
    · rw [hl] at hlen
      simp at hlen

/-- Witness for C10 at the initial state. -/
theorem C10_witness :
    State.default.context.getLast? = some Ty.BraceStmt
    ∧ State.default.context = [Ty.BraceStmt] :=
  ⟨(C10_bottom_marker State.default Reachable.init).1,
   (C10_bottom_marker State.default Reachable.init).2 rfl⟩

/-- When the selected scan path fails, the read-and-update tail of
`Lexer::next` synthesizes `Token::Error` and runs the update algorithm
on it: the stored classification and flag change, the context stack does
not. -/
theorem lexerNextRead_scan_error (st : State) (sc : ScannerStep) (e : Nat)
    (hread : readRes st.context sc = Except.error e) :
    lexerNextRead st sc =
      some (some { token := Token.Error e
                   had_line_break := st.had_line_break
                   span_lo := sc.pos1
                   span_hi := sc.pos2 },
            { st with
              token_type := some (TokenType.Other false)
              is_expr_allowed := false }) := by
  unfold lexerNextRead
  rw [hread]
  rfl

/-- Counterexample to claim C2 as stated: a failing ordinary scan does
not leave the lexer state unchanged — the synthesized error token is fed
through the update algorithm, so the stored previous classification
changes from `none` to the error token's classification and
`is_expr_allowed` from `true` to `false`. -/
theorem C2_cex :
    (lexerNext State.default ⟨none, false, 0, 0, 1, Except.error 7, Except.error 7⟩).map
        (fun r => (r.2.token_type, r.2.is_expr_allowed))
      = some (some (TokenType.Other false), false)
    ∧ (State.default.token_type, State.default.is_expr_allowed) = (none, true) := by
  constructor
  · rfl
  · rfl

/-- Claim C2 (amended): when the whitespace skipper succeeds (or is
skipped) and the selected scan path fails, `Lexer::next` synthesizes an
error token and emits it, but the update algorithm still runs against
that error token: the stored previous classification becomes the error
token's classification and `is_expr_allowed` its `before_expr` constant;
only the context stack (and the other fields) are left unchanged. -/
theorem C2_error_token_updates_state (st : State) (sc : ScannerStep) (e : Nat)
    (hskip : sc.skip_error = none)
    (hread : readRes st.context sc = Except.error e) :
    lexerNext st sc =
      some (some
        { token := Token.Error e
          had_line_break :=
            if st.can_skip_space then st.is_first || sc.skip_saw_newline
            else st.is_first
          span_lo := sc.pos1
          span_hi := sc.pos2 },
        { st with
          had_line_break :=
            if st.can_skip_space then st.is_first || sc.skip_saw_newline
            else st.is_first
          is_first := false
          token_type := some (TokenType.Other false)
          is_expr_allowed := false }) := by
  unfold lexerNext
  by_cases hc : st.can_skip_space = true
  · rw [if_pos (show State.can_skip_space { st with had_line_break := st.is_first, is_first := false } = true from hc)]
    rw [hskip]
    show lexerNextRead { st with had_line_break := st.is_first || sc.skip_saw_newline, is_first := false } sc = _
    rw [lexerNextRead_scan_error
      { st with had_line_break := st.is_first || sc.skip_saw_newline, is_first := false } sc e hread]
    rw [if_pos hc]
  · rw [if_neg (show ¬ State.can_skip_space { st with had_line_break := st.is_first, is_first := false } = true from hc)]
    rw [lexerNextRead_scan_error
      { st with had_line_break := st.is_first, is_first := false } sc e hread]
    rw [if_neg hc]

/-- Witness for the amended C2 at concrete inputs. -/
theorem C2_witness :
    lexerNext State.default ⟨none, false, 0, 0, 1, Except.error 7, Except.error 7⟩ =
      some (some { token := Token.Error 7
                   had_line_break := true
                   span_lo := 0
                   span_hi := 1 },
            { State.default with
              had_line_break := true
              is_first := false
              token_type := some (TokenType.Other false)
              is_expr_allowed := false }) :=
  C2_error_token_updates_state State.default
    ⟨none, false, 0, 0, 1, Except.error 7, Except.error 7⟩ 7 rfl rfl

/-- Claim C9: only the `Tpl` marker preserves space among the seven
context-marker kinds; `can_skip_space` is false exactly when the top of
the context stack is a `Tpl` marker; the token production loop consults
the whitespace skipper exactly when `can_skip_space` holds — its outcome
is ignored otherwise, and a skip failure is emitted immediately as an
error token carrying the failure's span and the current line-break
flag. -/
theorem C9_skip_space_rule :
    (∀ t : Ty, t.preserve_space = true ↔ ∃ s, t = Ty.Tpl s)
    ∧ (∀ st : State, st.can_skip_space = false ↔ ∃ s, st.context.head? = some (Ty.Tpl s))
    ∧ (∀ (st : State) (sc : ScannerStep) (a : Option Nat) (nl : Bool),
        st.can_skip_space = false →
        lexerNext st sc = lexerNext st { sc with skip_error := a, skip_saw_newline := nl })
    ∧ (∀ (st : State) (sc : ScannerStep) (e : Nat),
        st.can_skip_space = true → sc.skip_error = some e →
        lexerNext st sc =
          some (some { token := Token.Error e
                       had_line_break := st.is_first
                       span_lo := sc.pos0
                       span_hi := sc.pos1 },
                { st with had_line_break := st.is_first, is_first := false })) := by
  refine ⟨?_, ?_, ?_, ?_⟩
  · intro t
    cases t <;> simp [Ty.preserve_space]
  · intro st
    rcases hctx : st.context with _ | ⟨c, rest⟩
    · simp [State.can_skip_space, hctx]
    · cases c <;> simp [State.can_skip_space, hctx, Ty.preserve_space]
  · intro st sc a nl hc
    unfold lexerNext
    rw [if_neg (show ¬ State.can_skip_space { st with had_line_break := st.is_first, is_first := false } = true by
          rw [can_skip_space_flags, hc]; exact Bool.false_ne_true)]
    rw [if_neg (show ¬ State.can_skip_space { st with had_line_break := st.is_first, is_first := false } = true by
          rw [can_skip_space_flags, hc]; exact Bool.false_ne_true)]
    rfl
  · intro st sc e hc hskip
    unfold lexerNext
    rw [if_pos (show State.can_skip_space { st with had_line_break := st.is_first, is_first := false } = true from hc)]
    rw [hskip]

/-- Witness for C9 at concrete inputs. -/
theorem C9_witness :
    State.default.can_skip_space = true
    ∧ lexerNext State.default ⟨some 5, false, 2, 3, 4, Except.ok none, Except.error 0⟩ =
        some (some { token := Token.Error 5
                     had_line_break := true
                     span_lo := 2
                     span_hi := 3 },
              { State.default with had_line_break := true, is_first := false }) :=
  ⟨rfl,
   C9_skip_space_rule.2.2.2 State.default
     ⟨some 5, false, 2, 3, 4, Except.ok none, Except.error 0⟩ 5 rfl rfl⟩

end Swc
